import Mathlib

/-!
Shallow embedding of `src/mep_meetings/scraper/scraper.py`.

The module defines an abstract `BaseFetcher` (link planning, retried fetching,
concurrent dispatch, parsing and flattening) and a concrete
`EuroparlMeetingFetcher` (member-id extraction, `loadmore-meetings` URL
construction, per-field record extraction with BeautifulSoup).

Modelling conventions, each faithful to the named Python construct:

* Machine strings are Lean `String`s; Python `str.strip` is modelled by
  `pyStrip` over the six Python whitespace characters.
* `re.search(r"/(\d+)/", s)` and `re.search(r"page=(\d+)", s)` are modelled by
  explicit leftmost-match scanners (`searchId`, `searchPage`); `\d` is
  modelled as the ASCII digits, the alphabet that URLs in this program use.
* `urllib.parse.urlencode` is modelled by `urlencode` built on `quote_plus`
  (UTF-8 percent-encoding, space to `+`, safe set `[A-Za-z0-9_.~-]`).
* The HTML tree handed back by BeautifulSoup is abstract: a fetched `Body`
  carries the raw text plus the outcome of
  `soup.select(".erpl_document-header")` — either a thrown exception
  (`Except.error`, caught by the enclosing `try` of `parse_article`) or the
  list of container nodes.  Each container (`Header`) carries the result of
  the six per-field selector/accessor chains as `Option String`: `none`
  models "the nested `select_one`/`get` chain raised or produced no value",
  which the per-field `try/except` of the source converts to a null field.
* `httpx` + `raise_for_status` is modelled by `attemptOutcome`: a transport
  error, or a response whose non-2xx status becomes an error.
* The `tenacity` decorator `retry(stop=stop_after_attempt(3), wait=wait_fixed(2))`
  is modelled by `retryAux`, which records the attempts made and the fixed
  waits observed between consecutive attempts.
* `asyncio`/`tqdm_asyncio.gather(*tasks)` (default `return_exceptions=False`)
  returns results in submission order, or propagates an exception as soon as
  any task fails; this is modelled by `gatherExcept`.
* Mutation of `self` is modelled by explicit state passing of `FetcherState`;
  a raised exception is an `Except.error`.
* The concurrency structure of `fetch_article` is modelled separately by its
  list of scheduler-visible actions (`fetch_article_actions`) together with a
  small interleaving semantics (`runSchedule`) in which a task blocks on
  `semAcquire` while the semaphore has no free permit.
-/

namespace MepMeetings

/-- One value of a parsed record: Python `str`, `int`, or `None`. -/
inductive FieldValue where
  | str (s : String)
  | nat (n : Nat)
  | null
deriving DecidableEq

/-- A parsed meeting record: a Python dict, i.e. an insertion-ordered
association list from key to value. -/
abbrev Record := List (String × FieldValue)

/-- One `.erpl_document-header` container node.  Each component is the value
produced by that field's nested selector/accessor chain, `none` when the
chain raises (element absent) or yields no attribute. -/
structure Header where
  titleText : Option String
  dateAttr : Option String
  placeText : Option String
  capacityText : Option String
  codeText : Option String
  meetingText : Option String
deriving DecidableEq

instance {ε α : Type} [DecidableEq ε] [DecidableEq α] : DecidableEq (Except ε α) :=
  fun a b =>
    match a, b with
    | .ok x, .ok y => if h : x = y then .isTrue (by rw [h]) else .isFalse (by simp [h])
    | .error x, .error y => if h : x = y then .isTrue (by rw [h]) else .isFalse (by simp [h])
    | .ok _, .error _ => .isFalse (by simp)
    | .error _, .ok _ => .isFalse (by simp)

/-- A fetched response body: its raw text plus the outcome of selecting the
record containers from it (`Except.error` models `BeautifulSoup`/`select`
raising inside the big `try` of `parse_article`). -/
structure Body where
  raw : String
  select_headers : Except String (List Header)
deriving DecidableEq

/-- Outcome of one HTTP attempt by `client.get`: a transport error, or a
response with a status code and a body. -/
inductive HttpResult where
  | err (msg : String)
  | resp (status : Nat) (body : Body)
deriving DecidableEq

/-- The mutable state of a fetcher object (`BaseFetcher.__init__`,
lines 17-31): `base_url`, `article_links`, `articles`, `timeout` and the
(`Semaphore`) capacity `max_connections`.  `member_id` is the attribute the
`EuroparlMeetingFetcher` subclass adds. -/
structure FetcherState where
  base_url : Option String
  article_links : List String
  articles : List Record
  member_id : String
  timeout : Nat
  max_connections : Nat
deriving DecidableEq

/-- The six whitespace characters stripped by Python `str.strip()`. -/
def isPySpace (c : Char) : Bool :=
  c = ' ' || c = '\t' || c = '\n' || c = '\r' || c = '\x0b' || c = '\x0c'

/-- Python `str.strip()` on a character list. -/
def pyStripList (l : List Char) : List Char :=
  ((l.dropWhile isPySpace).reverse.dropWhile isPySpace).reverse

/-- Python `str.strip()`. -/
def pyStrip (s : String) : String := String.mk (pyStripList s.data)

/-- Python `str.replace("\n", " - ")` on a character list. -/
def replaceNL (l : List Char) : List Char :=
  (l.map (fun c => if c = '\n' then [' ', '-', ' '] else [c])).flatten

/-- The `.get_text().strip().replace("\n", " - ")` post-processing applied to
the Capacity, committee-code and Meeting-with fields. -/
def normalizeField (s : String) : String := String.mk (replaceNL (pyStripList s.data))

/-- Split a character list into its maximal leading ASCII-digit run and the
rest: the greedy `\d+`. -/
def spanDigits : List Char → List Char × List Char
  | [] => ([], [])
  | c :: rest =>
    if c.isDigit then
      let p := spanDigits rest
      (c :: p.1, p.2)
    else ([], c :: rest)

/-- Try to match `/(\d+)/` at the head of the list, returning the captured
digit group: a `/`, a nonempty greedy digit run, then a `/`. -/
def matchIdAt (l : List Char) : Option (List Char) :=
  match l with
  | [] => none
  | c :: rest =>
    let p := spanDigits rest
    if c = '/' ∧ p.1 ≠ [] ∧ p.2.head? = some '/' then some p.1 else none

/-- `re.search(r"/(\d+)/", ·)`: leftmost match, returning the digit group. -/
def searchId : List Char → Option (List Char)
  | [] => none
  | c :: rest =>
    match matchIdAt (c :: rest) with
    | some ds => some ds
    | none => searchId rest

/-- `EuroparlMeetingFetcher.extract_member_id` (lines 148-170): the first
`/(\d+)/` group of the referer URL, or a `ValueError`. -/
def extract_member_id (referer_url : String) : Except String String :=
  match searchId referer_url.data with
  | some ds => .ok (String.mk ds)
  | none => .error "Member ID not found in the referer URL"

/-- Try to match `page=(\d+)` at the head of the list, returning the captured
digit group. -/
def matchPageAt (l : List Char) : Option (List Char) :=
  match l with
  | 'p' :: 'a' :: 'g' :: 'e' :: '=' :: rest =>
    let p := spanDigits rest
    if p.1 = [] then none else some p.1
  | _ => none

/-- `re.search(r"page=(\d+)", ·)`: leftmost match, returning the digit group. -/
def searchPage : List Char → Option (List Char)
  | [] => none
  | c :: rest =>
    match matchPageAt (c :: rest) with
    | some ds => some ds
    | none => searchPage rest

/-- Python `int` on a decimal digit string. -/
def digitsToNat (ds : List Char) : Nat :=
  ds.foldl (fun a c => a * 10 + (c.toNat - 48)) 0

/-- The page number computed at lines 202-205:
`int(re.search(r"page=(\d+)", article_url).group(1))`, defaulting to `0` when
the search raises. -/
def pageOf (article_url : String) : Nat :=
  match searchPage article_url.data with
  | some ds => digitsToNat ds
  | none => 0

/-- Upper-case hexadecimal digit. -/
def hexDigit (n : Nat) : Char :=
  if n < 10 then Char.ofNat (48 + n) else Char.ofNat (55 + n)

/-- The UTF-8 encoding of one character, as byte values. -/
def utf8Bytes (c : Char) : List Nat :=
  let n := c.toNat
  if n < 128 then [n]
  else if n < 2048 then [192 + n / 64, 128 + n % 64]
  else if n < 65536 then [224 + n / 4096, 128 + (n / 64) % 64, 128 + n % 64]
  else [240 + n / 262144, 128 + (n / 4096) % 64, 128 + (n / 64) % 64, 128 + n % 64]

/-- Percent-encoding of one UTF-8 byte value under `urllib.parse.quote_plus`:
space becomes `+`, the safe set `[A-Za-z0-9_.~-]` is kept, everything else
becomes `%XX`. -/
def quoteByte (n : Nat) : List Char :=
  let c := Char.ofNat n
  if n = 32 then ['+']
  else if c.isAlphanum || c = '_' || c = '.' || c = '-' || c = '~' then [c]
  else ['%', hexDigit (n / 16), hexDigit (n % 16)]

/-- `urllib.parse.quote_plus`: encode to UTF-8, then percent-encode each
byte. -/
def quote_plus (s : String) : String :=
  String.mk (((s.data.map utf8Bytes).flatten.map quoteByte).flatten)

/-- `urllib.parse.urlencode` on an ordered parameter list. -/
def urlencode (params : List (String × String)) : String :=
  String.intercalate "&" (params.map (fun kv => quote_plus kv.1 ++ "=" ++ quote_plus kv.2))

/-- The fixed base endpoint passed to `super().__init__` (line 139). -/
def loadmore_url : String := "https://www.europarl.europa.eu/meps/en/loadmore-meetings"

/-- The URL synthesized by `construct_or_retrieve_links` (lines 180-187) for
one page number. -/
def construct_url (member_id : String) (page : Nat) : String :=
  loadmore_url ++ "?" ++ urlencode
    [("meetingType", "PAST"), ("memberId", member_id), ("termId", "10"),
     ("page", toString page), ("pageSize", "10")]

/-- `BaseFetcher.__init__` (lines 17-31). -/
def baseInit (base_url : Option String) (timeout max_connections : Nat) : FetcherState :=
  { base_url := base_url, article_links := [], articles := [],
    member_id := "", timeout := timeout, max_connections := max_connections }

/-- Default `max_connections` of `BaseFetcher.__init__` (line 18). -/
def base_default_max_connections : Nat := 3

/-- Default `max_connections` of `EuroparlMeetingFetcher.__init__` (line 124). -/
def europarl_default_max_connections : Nat := 8

/-- `EuroparlMeetingFetcher.__init__` (lines 123-146): call the base
initializer with the fixed base URL, seed `article_links` with the referer
URL, then derive `member_id` — raising `ValueError` if the referer URL holds
no id. -/
def europarlInit (referer_url : String) (timeout max_connections : Nat) :
    Except String FetcherState :=
  match extract_member_id referer_url with
  | .error e => .error e
  | .ok mid =>
    .ok { baseInit (some loadmore_url) timeout max_connections with
          article_links := [referer_url], member_id := mid }

/-- `EuroparlMeetingFetcher.construct_or_retrieve_links` (lines 172-188):
append the synthesized URL for `page` to `self.article_links`. -/
def construct_or_retrieve_links (st : FetcherState) (page : Nat) : FetcherState :=
  { st with article_links := st.article_links ++ [construct_url st.member_id page] }

/-- The planning loop of `fetch_all_articles` (lines 83-88): call
`construct_or_retrieve_links` for pages `1 .. pages` in order. -/
def planningPhase (st : FetcherState) (pages : Nat) : FetcherState :=
  (List.range' 1 pages).foldl construct_or_retrieve_links st

/-- The error message attached to a non-2xx response by `raise_for_status`. -/
def errOf : HttpResult → String
  | .err m => m
  | .resp status _ => "HTTP status error: " ++ toString status

/-- One attempt of the body of `fetch_article` (lines 67-74):
`client.get` followed by `raise_for_status`; every transport error and every
non-2xx status is re-raised (to trigger a retry). -/
def attemptOutcome : HttpResult → Except String Body
  | .err m => .error m
  | .resp status body =>
    if 200 ≤ status ∧ status ≤ 299 then .ok body
    else .error ("HTTP status error: " ++ toString status)

/-- Whether one attempt fails: a transport error or a non-2xx status. -/
def attemptFails : HttpResult → Bool
  | .err _ => true
  | .resp status _ => if 200 ≤ status ∧ status ≤ 299 then false else true

/-- The observable trace of one retried fetch: its final result, the number
of attempts made, and the waits observed between consecutive attempts. -/
structure RetryTrace where
  result : Except String Body
  attempts : Nat
  waits : List Nat
deriving DecidableEq

/-- `wait_fixed(2)` of the `tenacity` decorator (line 56). -/
def wait_fixed_seconds : Nat := 2

/-- `stop_after_attempt(3)` of the `tenacity` decorator (line 56). -/
def stop_after_attempts : Nat := 3

/-- The `tenacity` retry loop: attempt number `k` with `fuel` attempts left;
on failure with attempts remaining wait `w` and retry, on failure at the last
attempt surface the error (`RetryError` wrapping the last exception). -/
def retryAux (t : Nat → Except String Body) (w : Nat) : Nat → Nat → RetryTrace
  | k, 0 => ⟨t k, 1, []⟩
  | k, 1 => ⟨t k, 1, []⟩
  | k, fuel + 2 =>
    match t k with
    | .ok b => ⟨.ok b, 1, []⟩
    | .error _ =>
      let rest := retryAux t w (k + 1) (fuel + 1)
      ⟨rest.result, rest.attempts + 1, w :: rest.waits⟩

/-- `BaseFetcher.fetch_article` (lines 56-74): the attempt body wrapped in
`retry(stop=stop_after_attempt(3), wait=wait_fixed(2))`.  `transport k` is
what the network does on the k-th attempt for this URL. -/
def fetch_article (transport : Nat → HttpResult) : RetryTrace :=
  retryAux (fun k => attemptOutcome (transport k)) wait_fixed_seconds 1 stop_after_attempts

/-- `asyncio.gather` with `return_exceptions=False` (the
`tqdm_asyncio.gather` default, line 95): results in submission order, or the
exception of a failed task. -/
def gatherExcept : List (Except String Body) → Except String (List Body)
  | [] => .ok []
  | .error e :: _ => .error e
  | .ok b :: rest =>
    match gatherExcept rest with
    | .error e => .error e
    | .ok bs => .ok (b :: bs)

/-- The task list built at lines 91-94: one `fetch_article` per entry of
`self.article_links` after planning, in list order; each entry is that
task's final result.  `transport url k` is the network's answer to the k-th
attempt at `url`. -/
def dispatchResults (st : FetcherState) (pages : Nat)
    (transport : String → Nat → HttpResult) : List (Except String Body) :=
  (planningPhase st pages).article_links.map (fun url => (fetch_article (transport url)).result)

/-- `BaseFetcher.fetch_all_articles` (lines 76-96): run the planning loop,
then dispatch one `fetch_article` per planned link and gather. -/
def fetch_all_articles (st : FetcherState) (pages : Nat)
    (transport : String → Nat → HttpResult) :
    FetcherState × Except String (List Body) :=
  (planningPhase st pages, gatherExcept (dispatchResults st pages transport))

/-- Wrap an extracted optional field value as a dict value. -/
def optStr : Option String → FieldValue
  | some s => .str s
  | none => .null

/-- The per-container loop body of `parse_article` (lines 211-267): each of
the six fields is extracted by its own selector chain inside its own
`try/except`, a raised chain yielding `None`; then `page_number` is attached. -/
def parseHeader (page : Nat) (h : Header) : Record :=
  [("Title", optStr h.titleText),
   ("Date", optStr h.dateAttr),
   ("Place", optStr h.placeText),
   ("Capacity", optStr (h.capacityText.map normalizeField)),
   ("Code of associated committee or delegation", optStr (h.codeText.map normalizeField)),
   ("Meeting with", optStr (h.meetingText.map normalizeField)),
   ("page_number", FieldValue.nat page)]

/-- `EuroparlMeetingFetcher.parse_article` (lines 190-272): `None` for an
empty-after-strip body; page number from the URL (default 0); `None` when
selecting the containers raises; otherwise one record per container. -/
def parse_article (body : Body) (article_url : String) : Option (List Record) :=
  if (pyStrip body.raw).length = 0 then none
  else
    let page := pageOf article_url
    match body.select_headers with
    | .error _ => none
    | .ok headers => some (headers.map (parseHeader page))

/-- `BaseFetcher.run_async` (lines 98-119): fetch all pages, zip the
responses with `self.article_links` positionally, parse each body, drop
`None` parse results and flatten.  The second component is `.error e` when
the fetch phase raised `e` out of `run_async` (leaving `self.articles`
untouched). -/
def run_async (st : FetcherState) (pages : Nat)
    (transport : String → Nat → HttpResult) :
    FetcherState × Except String Unit :=
  match fetch_all_articles st pages transport with
  | (st2, .error e) => (st2, .error e)
  | (st2, .ok bodies) =>
    let parsed := ((bodies.zip st2.article_links).map
      (fun p => parse_article p.1 p.2)).filterMap id
    ({ st2 with articles := parsed.flatten }, .ok ())

/-- Construct an `EuroparlMeetingFetcher` from a seed URL and run it:
`ValueError` from `__init__` propagates before any fetch is dispatched. -/
def run_from_seed (referer_url : String) (timeout max_connections pages : Nat)
    (transport : String → Nat → HttpResult) : Except String FetcherState :=
  match europarlInit referer_url timeout max_connections with
  | .error e => .error e
  | .ok st => .ok (run_async st pages transport).1

/-- The records contributed to the aggregate output by one planned link:
what its (successful) fetched body parses to, and nothing for a page whose
parse returned `None`. -/
def pageRecordsFor (transport : String → Nat → HttpResult) (url : String) : List Record :=
  match (fetch_article (transport url)).result with
  | .ok b => (parse_article b url).getD []
  | .error _ => []

/-- The scheduler-visible actions a fetch task can perform. -/
inductive FetchAction where
  | semAcquire
  | semRelease
  | getStart
  | getEnd
deriving DecidableEq

/-- The action trace of the body of `fetch_article` (lines 56-74): it awaits
one `client.get` and never touches `self.semaphore` — the semaphore created
at line 31 is acquired nowhere in the module. -/
def fetch_article_actions : List FetchAction := [.getStart, .getEnd]

/-- Interleaving state: one program counter per concurrent task, plus the
number of free semaphore permits. -/
structure ConcState where
  pcs : List Nat
  sem : Nat
deriving DecidableEq

/-- Execute the next action of task `i`, if it has one and it is enabled
(`semAcquire` blocks while no permit is free). -/
def stepTask (acts : List FetchAction) (s : ConcState) (i : Nat) : Option ConcState :=
  match s.pcs.get? i with
  | none => none
  | some pc =>
    match acts.get? pc with
    | none => none
    | some FetchAction.semAcquire =>
      if s.sem = 0 then none else some ⟨s.pcs.set i (pc + 1), s.sem - 1⟩
    | some FetchAction.semRelease => some ⟨s.pcs.set i (pc + 1), s.sem + 1⟩
    | some FetchAction.getStart => some ⟨s.pcs.set i (pc + 1), s.sem⟩
    | some FetchAction.getEnd => some ⟨s.pcs.set i (pc + 1), s.sem⟩

/-- Run a schedule: a sequence of task indices, each executing its next
action; `none` if some step is disabled. -/
def runSchedule (acts : List FetchAction) : ConcState → List Nat → Option ConcState
  | s, [] => some s
  | s, i :: rest =>
    match stepTask acts s i with
    | none => none
    | some s2 => runSchedule acts s2 rest

/-- A task is mid-fetch when it has executed more `getStart` than `getEnd`
actions. -/
def startedNotFinished (acts : List FetchAction) (pc : Nat) : Bool :=
  Nat.blt ((acts.take pc).count FetchAction.getEnd) ((acts.take pc).count FetchAction.getStart)

/-- Number of fetch operations concurrently in flight. -/
def inFlight (acts : List FetchAction) (s : ConcState) : Nat :=
  s.pcs.countP (startedNotFinished acts)

/-- The seed URL of the module's example usage (docstring lines 134 and
160-164). -/
def exampleSeed : String :=
  "https://www.europarl.europa.eu/meps/en/256864/ANDRAS+TIVADAR_KULJA/meetings/past"

/-- The fetcher state after `EuroparlMeetingFetcher(referer_url=exampleSeed)`
with the default timeout and `max_connections`. -/
def exampleState : FetcherState :=
  match europarlInit exampleSeed 10 europarl_default_max_connections with
  | .ok st => st
  | .error _ => baseInit none 10 europarl_default_max_connections

/-- A transport on which every request immediately succeeds with an empty
body. -/
def okTransport : String → Nat → HttpResult :=
  fun _ _ => .resp 200 ⟨"", .ok []⟩

/-- A container with every field present. -/
def goodHeader : Header :=
  ⟨some "T", some "2025-01-01", some "P", some "C", some "CD", some "M"⟩

/-- A page body holding one fully-populated container. -/
def goodBody : Body := ⟨"<html>", .ok [goodHeader]⟩

/-- A transport on which the seed URL succeeds with `goodBody` and every
other URL fails on every attempt with a transport error. -/
def failTransport : String → Nat → HttpResult :=
  fun url _ => if url = exampleSeed then .resp 200 goodBody else .err "boom"

/-- A per-attempt transport answering 503 Service Unavailable on every
attempt. -/
def failAttempts : Nat → HttpResult := fun _ => .resp 503 ⟨"", .ok []⟩

/-- The common left part of every synthesized link, up to the value of the
`page` parameter. -/
def urlPre (member_id : String) : String :=
  loadmore_url ++ "?meetingType=PAST&memberId=" ++ quote_plus member_id ++ "&termId=10&page="

/-- The common right part of every synthesized link, after the value of the
`page` parameter. -/
def urlSuf : String := "&pageSize=10"

/-- The exact key sequence of every record built by `parse_article`
(lines 212-266). -/
def recordKeys : List String :=
  ["Title", "Date", "Place", "Capacity",
   "Code of associated committee or delegation", "Meeting with", "page_number"]

/-- Whether a dict value is a string or `None`. -/
def isStrOrNull : FieldValue → Bool
  | .str _ => true
  | .null => true
  | .nat _ => false

/-- A match of `/(\d+)/` in `l` at offset `pre.length` capturing `ds`. -/
def IsIdMatchAt (l pre ds : List Char) : Prop :=
  ∃ suf, l = pre ++ '/' :: (ds ++ '/' :: suf) ∧ ds ≠ [] ∧ ds.all Char.isDigit = true

/-- `ds` is the group of the leftmost `/(\d+)/` match in `l`. -/
def FirstIdMatch (l ds : List Char) : Prop :=
  ∃ pre, IsIdMatchAt l pre ds ∧ ∀ pre2 ds2, IsIdMatchAt l pre2 ds2 → pre.length ≤ pre2.length

end MepMeetings

namespace MepMeetings

/-- The planning loop only appends to `article_links`, one synthesized URL
per page index in ascending order; every other attribute is untouched. -/
theorem planningAux (n : Nat) : ∀ (a : Nat) (st : FetcherState),
    (List.range' a n).foldl construct_or_retrieve_links st
      = { st with article_links :=
            st.article_links ++ (List.range' a n).map (construct_url st.member_id) } := by
  induction n with
  | zero => intro a st; simp
  | succ n ih =>
    intro a st
    rw [List.range'_succ]
    simp only [List.foldl_cons, List.map_cons]
    rw [ih]
    simp [construct_or_retrieve_links]

/-- Closed form of the planning phase. -/
theorem planningPhase_eq (st : FetcherState) (pages : Nat) :
    planningPhase st pages
      = { st with article_links :=
            st.article_links ++ (List.range' 1 pages).map (construct_url st.member_id) } :=
  planningAux pages 1 st

/-- Every synthesized link is a fixed left part (depending only on the
member id), then the encoded page value, then a fixed right part. -/
theorem construct_url_eq (mid : String) (p : Nat) :
    construct_url mid p = urlPre mid ++ (quote_plus (toString p) ++ urlSuf) := by
  have q1 : quote_plus "meetingType" = "meetingType" := rfl
  have q2 : quote_plus "PAST" = "PAST" := rfl
  have q3 : quote_plus "memberId" = "memberId" := rfl
  have q4 : quote_plus "termId" = "termId" := rfl
  have q5 : quote_plus "10" = "10" := rfl
  have q6 : quote_plus "page" = "page" := rfl
  have q7 : quote_plus "pageSize" = "pageSize" := rfl
  apply String.ext
  simp only [construct_url, urlencode, List.map_cons, List.map_nil, urlPre, urlSuf,
    String.intercalate, String.intercalate.go, q1, q2, q3, q4, q5, q6, q7,
    String.data_append, List.append_assoc]
  simp [List.cons_append, List.append_assoc]

/-- `run_async` when some dispatched task fails: the exception propagates
and `articles` is left as it was. -/
theorem run_async_gather_error (st : FetcherState) (pages : Nat)
    (transport : String → Nat → HttpResult) (e : String)
    (h : gatherExcept (dispatchResults st pages transport) = .error e) :
    run_async st pages transport = (planningPhase st pages, .error e) := by
  unfold run_async fetch_all_articles
  rw [h]

/-- `run_async` when every dispatched task succeeds: bodies are zipped with
the planned links positionally, parsed, `None` parses dropped, flattened. -/
theorem run_async_gather_ok (st : FetcherState) (pages : Nat)
    (transport : String → Nat → HttpResult) (bodies : List Body)
    (h : gatherExcept (dispatchResults st pages transport) = .ok bodies) :
    run_async st pages transport
      = ({ planningPhase st pages with articles :=
            (((bodies.zip (planningPhase st pages).article_links).map
                (fun p => parse_article p.1 p.2)).filterMap id).flatten }, .ok ()) := by
  unfold run_async fetch_all_articles
  rw [h]

end MepMeetings

namespace MepMeetings

/-- C1 (counterexample): the claim says that after the Planning phase the
list of URLs to fetch contains exactly N requests; for the example seed and
N = 1 the code's list has length 2, because `EuroparlMeetingFetcher.__init__`
(line 145) seeds `article_links` with the referer URL before any page link
is synthesized. -/
theorem planningPhase_one_page_has_two_links :
    (europarlInit exampleSeed 10 europarl_default_max_connections).map
        (fun st => (planningPhase st 1).article_links.length) = Except.ok 2
    ∧ (2 : Nat) ≠ 1 := by
  exact ⟨rfl, by decide⟩

/-- C1 (amended): after the Planning phase the fetch list is the seed
referer URL followed by exactly N synthesized requests, generated for pages
1..N in ascending order, and any two synthesized URLs differ only in the
encoded value of the `page` query parameter; the list is a pure function of
(member id, N). -/
theorem planningPhase_links_seed_then_pages
    (referer : String) (timeout maxConn pages : Nat) (st : FetcherState)
    (hinit : europarlInit referer timeout maxConn = .ok st) (hpages : 1 ≤ pages) :
    (planningPhase st pages).article_links
        = referer :: (List.range' 1 pages).map (construct_url st.member_id)
    ∧ (planningPhase st pages).article_links.length = pages + 1
    ∧ ∀ p, construct_url st.member_id p
        = urlPre st.member_id ++ (quote_plus (toString p) ++ urlSuf) := by
  have hlinks : st.article_links = [referer] := by
    unfold europarlInit at hinit
    cases h : extract_member_id referer with
    | error e => rw [h] at hinit; exact absurd hinit (by simp)
    | ok mid =>
      rw [h] at hinit
      injection hinit with h2
      subst h2
      rfl
  refine ⟨?_, ?_, fun p => construct_url_eq st.member_id p⟩
  · rw [planningPhase_eq]
    simp [hlinks]
  · rw [planningPhase_eq]
    simp [hlinks]

/-- Witness for C1 (amended) at the example seed URL and N = 2. -/
theorem planningPhase_links_seed_then_pages_witness :
    (planningPhase exampleState 2).article_links
      = exampleSeed :: (List.range' 1 2).map (construct_url exampleState.member_id) :=
  (planningPhase_links_seed_then_pages exampleSeed 10 europarl_default_max_connections 2
    exampleState rfl (by decide)).1

/-- C9 (amended): within one run the link list is exactly what planning
appended, untouched by dispatch, collection and parsing; but the list is
instance state, not run-scoped — a run leaves behind its own links appended
to whatever the instance already held, so a second run extends (and
re-fetches) the first run's list instead of starting fresh. -/
theorem run_async_article_links_accumulate
    (st : FetcherState) (pages : Nat) (transport : String → Nat → HttpResult) :
    (run_async st pages transport).1.article_links
      = st.article_links ++ (List.range' 1 pages).map (construct_url st.member_id) := by
  cases hg : gatherExcept (dispatchResults st pages transport) with
  | error e =>
    rw [run_async_gather_error st pages transport e hg, planningPhase_eq]
  | ok bodies =>
    rw [run_async_gather_ok st pages transport bodies hg]
    show (planningPhase st pages).article_links = _
    rw [planningPhase_eq]

/-- C9 (counterexample): the claim says a second run on the same instance
starts from a fresh link list; in the code, after one completed run the
second run's Planning phase produces the previous run's two links plus a
duplicate of the page-1 link, not a fresh list. -/
theorem second_run_extends_previous_links :
    (planningPhase (run_async exampleState 1 okTransport).1 1).article_links
      = exampleSeed :: construct_url "256864" 1 :: [construct_url "256864" 1]
    ∧ (planningPhase (run_async exampleState 1 okTransport).1 1).article_links
      ≠ (planningPhase exampleState 1).article_links := by
  constructor
  · rfl
  · decide

/-- C2 (code bug): `BaseFetcher.__init__` creates
`Semaphore(max_connections)` (line 31, documented as "the maximum number of
concurrent connections") but `fetch_article` — the only fetch path — never
acquires it: its action trace holds no `semAcquire`.  Consequently a
schedule exists in which every dispatched fetch of a default Europarl run
over 8 pages (9 planned links) is in flight simultaneously, 9 > 8; likewise
4 > 3 for the general base default. -/
theorem fetch_never_acquires_semaphore_concurrency_unbounded :
    FetchAction.semAcquire ∉ fetch_article_actions
    ∧ (planningPhase exampleState 8).article_links.length = 9
    ∧ exampleState.max_connections = europarl_default_max_connections
    ∧ runSchedule fetch_article_actions
        ⟨List.replicate 9 0, europarl_default_max_connections⟩ (List.range 9)
        = some ⟨List.replicate 9 1, europarl_default_max_connections⟩
    ∧ inFlight fetch_article_actions ⟨List.replicate 9 1, europarl_default_max_connections⟩ = 9
    ∧ europarl_default_max_connections < 9
    ∧ runSchedule fetch_article_actions
        ⟨List.replicate 4 0, base_default_max_connections⟩ (List.range 4)
        = some ⟨List.replicate 4 1, base_default_max_connections⟩
    ∧ inFlight fetch_article_actions ⟨List.replicate 4 1, base_default_max_connections⟩ = 4
    ∧ base_default_max_connections < 4 := by
  refine ⟨?_, ?_, ?_, ?_, ?_, ?_, ?_, ?_, ?_⟩ <;> decide

/-- C3 (code bug): with the seed page succeeding (one parseable record) and
the page-1 link failing on every attempt, the whole run aborts with the
propagated error — `tenacity` re-raises after the third attempt and
`gather(return_exceptions=False)` re-raises out of `run_async` — and
`self.articles` retains nothing, although the successful page's body parses
to a record.  The claim (and `fetch_article`'s own docstring, "None if
fetching failed") requires the run to complete with only that page absent. -/
theorem run_aborts_when_one_url_always_fails :
    (run_async exampleState 1 failTransport).2 = .error "boom"
    ∧ (run_async exampleState 1 failTransport).1.articles = []
    ∧ parse_article goodBody exampleSeed = some [parseHeader 0 goodHeader] := by
  refine ⟨?_, ?_, ?_⟩ <;> decide

/-- C7 (counterexample): the claim says the parser returns an empty sequence
for an empty or whitespace-only body; `parse_article` line 200-201 returns
`None`, which is not the empty sequence. -/
theorem parse_article_empty_body_not_empty_sequence :
    parse_article ⟨"", Except.ok []⟩ "u" = none
    ∧ parse_article ⟨"", Except.ok []⟩ "u" ≠ some [] := by
  constructor <;> decide

/-- C7 (amended): the parser never raises for its caller — it is a total
function into `Option` — and it returns `None` (not an empty sequence) both
for an empty-or-whitespace body and when selecting the record containers
throws; the orchestrator's flattening step drops the `None`, so such a page
contributes zero records. -/
theorem parse_article_none_on_empty_or_select_error (body : Body) (article_url : String) :
    ((pyStrip body.raw).length = 0 → parse_article body article_url = none)
    ∧ (∀ e, body.select_headers = .error e → parse_article body article_url = none) := by
  constructor
  · intro h
    simp [parse_article, h]
  · intro e h
    by_cases h0 : (pyStrip body.raw).length = 0
    · simp [parse_article, h0]
    · simp [parse_article, h0, h]

/-- Witness for C7 (amended): a whitespace-only body and a body whose
container selection throws. -/
theorem parse_article_none_on_empty_or_select_error_witness :
    parse_article ⟨" \t\n", Except.ok []⟩ "u" = none
    ∧ parse_article ⟨"x", Except.error "boom"⟩ "u" = none :=
  ⟨(parse_article_none_on_empty_or_select_error ⟨" \t\n", .ok []⟩ "u").1 (by decide),
   (parse_article_none_on_empty_or_select_error ⟨"x", .error "boom"⟩ "u").2 "boom" rfl⟩

end MepMeetings

namespace MepMeetings

/-- A failing attempt produces exactly the error `errOf` describes. -/
theorem attemptFails_error (r : HttpResult) (h : attemptFails r = true) :
    attemptOutcome r = .error (errOf r) := by
  cases r with
  | err m => rfl
  | resp status body =>
    by_cases hs : 200 ≤ status ∧ status ≤ 299
    · simp [attemptFails, hs] at h
    · simp [attemptOutcome, errOf, hs]

/-- One failing attempt with at least two attempts of budget left: wait the
fixed delay and recurse on the next attempt. -/
theorem retryAux_error_step (f : Nat → Except String Body) (w k fuel : Nat) (e : String)
    (h : f k = .error e) :
    retryAux f w k (fuel + 2)
      = ⟨(retryAux f w (k + 1) (fuel + 1)).result,
         (retryAux f w (k + 1) (fuel + 1)).attempts + 1,
         w :: (retryAux f w (k + 1) (fuel + 1)).waits⟩ := by
  rw [retryAux, h]

/-- Three consecutive failing attempts exhaust the budget of 3: the third
attempt's error is surfaced, after two fixed waits. -/
theorem retry_three_fail (f : Nat → Except String Body) (e1 e2 e3 : String)
    (h1 : f 1 = .error e1) (h2 : f 2 = .error e2) (h3 : f 3 = .error e3) :
    retryAux f 2 1 3 = ⟨.error e3, 3, [2, 2]⟩ := by
  have s3 : retryAux f 2 3 1 = ⟨.error e3, 1, []⟩ := by rw [retryAux, h3]
  have s2 : retryAux f 2 2 2 = ⟨.error e3, 2, [2]⟩ := by
    have step := retryAux_error_step f 2 2 0 e2 h2
    simpa [s3] using step
  have step := retryAux_error_step f 2 1 1 e1 h1
  simpa [s2] using step

/-- C5: when every attempt at a URL fails (transport error or non-2xx
status), the retry wrapper makes exactly 3 attempts, observes the fixed
2-unit delay between consecutive attempts (two inter-attempt waits), and
surfaces a terminal error only then — the error of the third, independent
attempt. -/
theorem fetch_article_three_attempts_on_repeated_failure
    (transport : Nat → HttpResult) (hfail : ∀ k, attemptFails (transport k) = true) :
    (fetch_article transport).attempts = 3
    ∧ (fetch_article transport).waits = [2, 2]
    ∧ (fetch_article transport).result = .error (errOf (transport 3)) := by
  have h1 := attemptFails_error (transport 1) (hfail 1)
  have h2 := attemptFails_error (transport 2) (hfail 2)
  have h3 := attemptFails_error (transport 3) (hfail 3)
  have key : fetch_article transport = ⟨.error (errOf (transport 3)), 3, [2, 2]⟩ :=
    retry_three_fail (fun k => attemptOutcome (transport k)) _ _ _ h1 h2 h3
  rw [key]
  exact ⟨rfl, rfl, rfl⟩

/-- Witness for C5: a transport answering 503 on every attempt. -/
theorem fetch_article_three_attempts_on_repeated_failure_witness :
    (fetch_article failAttempts).attempts = 3
    ∧ (fetch_article failAttempts).waits = [2, 2]
    ∧ (fetch_article failAttempts).result = .error (errOf (failAttempts 3)) :=
  fetch_article_three_attempts_on_repeated_failure failAttempts (fun _ => rfl)

end MepMeetings

namespace MepMeetings

/-- C6: a container whose date chain raises (`none`) while every other
chain yields a value parses to one emitted record with `Date = None` and
every sibling field populated from its own chain — per-field failure is
isolated by the per-field `try/except` blocks. -/
theorem parse_article_missing_date_yields_null_date_record
    (raw article_url t pl c cd m : String) (hraw : (pyStrip raw).length ≠ 0) :
    parse_article ⟨raw, .ok [⟨some t, none, some pl, some c, some cd, some m⟩]⟩ article_url
      = some [[("Title", FieldValue.str t),
               ("Date", FieldValue.null),
               ("Place", FieldValue.str pl),
               ("Capacity", FieldValue.str (normalizeField c)),
               ("Code of associated committee or delegation",
                 FieldValue.str (normalizeField cd)),
               ("Meeting with", FieldValue.str (normalizeField m)),
               ("page_number", FieldValue.nat (pageOf article_url))]] := by
  simp [parse_article, hraw, parseHeader, optStr]

/-- Witness for C6 at a concrete page body and a synthesized URL. -/
theorem parse_article_missing_date_yields_null_date_record_witness :
    parse_article ⟨"<html>", .ok [⟨some "T", none, some "P", some "C", some "CD", some "M"⟩]⟩
        (construct_url "256864" 1)
      = some [[("Title", FieldValue.str "T"),
               ("Date", FieldValue.null),
               ("Place", FieldValue.str "P"),
               ("Capacity", FieldValue.str (normalizeField "C")),
               ("Code of associated committee or delegation",
                 FieldValue.str (normalizeField "CD")),
               ("Meeting with", FieldValue.str (normalizeField "M")),
               ("page_number", FieldValue.nat (pageOf (construct_url "256864" 1)))]] :=
  parse_article_missing_date_yields_null_date_record "<html>" (construct_url "256864" 1)
    "T" "P" "C" "CD" "M" (by decide)

/-- Wrapping an optional extraction always yields a string or `None`. -/
theorem isStrOrNull_optStr (o : Option String) : isStrOrNull (optStr o) = true := by
  cases o <;> rfl

/-- C10: every record the parser emits has exactly the seven keys in order
(Title, Date, Place, Capacity, committee code, Meeting with, page_number);
the six named fields are strings or `None`; `page_number` is the natural
number scraped from the first `page=<digits>` of the source URL, and the
seed URL — which carries no `page` parameter — yields the default 0. -/
theorem parse_article_record_shape (body : Body) (article_url : String)
    (recs : List Record) (rec : Record)
    (h1 : parse_article body article_url = some recs) (h2 : rec ∈ recs) :
    rec.map Prod.fst = recordKeys
    ∧ (∀ kv, kv ∈ rec → kv.1 ≠ "page_number" → isStrOrNull kv.2 = true)
    ∧ rec.lookup "page_number" = some (FieldValue.nat (pageOf article_url))
    ∧ pageOf exampleSeed = 0 := by
  by_cases h0 : (pyStrip body.raw).length = 0
  · simp [parse_article, h0] at h1
  · cases hs : body.select_headers with
    | error e => simp [parse_article, h0, hs] at h1
    | ok headers =>
      simp [parse_article, h0, hs] at h1
      subst h1
      obtain ⟨h, hmem, rfl⟩ := List.mem_map.mp h2
      refine ⟨rfl, ?_, rfl, by decide⟩
      intro kv hkv hne
      simp [parseHeader] at hkv
      rcases hkv with rfl | rfl | rfl | rfl | rfl | rfl | rfl
      · exact isStrOrNull_optStr _
      · exact isStrOrNull_optStr _
      · exact isStrOrNull_optStr _
      · exact isStrOrNull_optStr _
      · exact isStrOrNull_optStr _
      · exact isStrOrNull_optStr _
      · exact absurd rfl hne

/-- Witness for C10 at a concrete body and synthesized URL (whose scraped
page number is 1). -/
theorem parse_article_record_shape_witness :
    (parseHeader 1 goodHeader).map Prod.fst = recordKeys
    ∧ (parseHeader 1 goodHeader).lookup "page_number"
        = some (FieldValue.nat (pageOf (construct_url "256864" 1))) :=
  ⟨(parse_article_record_shape goodBody (construct_url "256864" 1)
      [parseHeader 1 goodHeader] (parseHeader 1 goodHeader) (by decide) (by decide)).1,
   (parse_article_record_shape goodBody (construct_url "256864" 1)
      [parseHeader 1 goodHeader] (parseHeader 1 goodHeader) (by decide) (by decide)).2.2.1⟩

end MepMeetings

namespace MepMeetings

/-- A successful gather means every task succeeded, with the result list
positionally aligned with the task list. -/
theorem gather_ok (rs : List (Except String Body)) (bs : List Body)
    (h : gatherExcept rs = .ok bs) : rs = bs.map Except.ok := by
  induction rs generalizing bs with
  | nil =>
    unfold gatherExcept at h
    injection h with h
    subst h
    rfl
  | cons r rest ih =>
    cases r with
    | error e => simp [gatherExcept] at h
    | ok b =>
      unfold gatherExcept at h
      cases hg : gatherExcept rest with
      | error e => rw [hg] at h; simp at h
      | ok bs2 =>
        rw [hg] at h
        simp at h
        subst h
        simp [ih bs2 hg]

/-- Dropping `None` page results before flattening is the same as flattening
each `None` to no records. -/
theorem flatten_filterMap_getD (l : List (Option (List Record))) :
    (l.filterMap id).flatten = (l.map (fun o => o.getD [])).flatten := by
  induction l with
  | nil => rfl
  | cons o rest ih => cases o <;> simp [List.filterMap_cons, ih]

/-- When every fetch succeeded, flattening the per-pair parses of the
positional zip equals the concatenation, in planned link order, of each
link's own records. -/
theorem parsed_flatten_eq (transport : String → Nat → HttpResult) :
    ∀ (links : List String) (bodies : List Body),
      links.map (fun url => (fetch_article (transport url)).result) = bodies.map Except.ok →
      ((bodies.zip links).map (fun p => (parse_article p.1 p.2).getD [])).flatten
        = (links.map (pageRecordsFor transport)).flatten := by
  intro links
  induction links with
  | nil =>
    intro bodies h
    have hb : bodies = [] := by
      cases bodies with
      | nil => rfl
      | cons b bs => simp at h
    subst hb
    rfl
  | cons u us ih =>
    intro bodies h
    cases bodies with
    | nil => simp at h
    | cons b bs =>
      simp only [List.map_cons, List.cons.injEq] at h
      obtain ⟨h1, h2⟩ := h
      have hrec : pageRecordsFor transport u = (parse_article b u).getD [] := by
        unfold pageRecordsFor
        rw [h1]
      simp only [List.zip_cons_cons, List.map_cons, List.flatten_cons]
      rw [hrec, ih bs h2]

/-- C4: whenever a run completes, its aggregate output is exactly the
concatenation, in planned link order, of each link's parsed records — the
outcome list is re-associated with the links by position (`gather` returns
results in submission order and `run_async` zips them with
`self.article_links`), records within a page stay in the document order the
parser emitted, and for every cut point k all records of the first k links
precede all records of the remaining links. -/
theorem run_async_output_preserves_page_order
    (st : FetcherState) (pages : Nat) (transport : String → Nat → HttpResult)
    (h : (run_async st pages transport).2 = .ok ()) :
    (run_async st pages transport).1.articles
      = ((planningPhase st pages).article_links.map (pageRecordsFor transport)).flatten
    ∧ ∀ k, (run_async st pages transport).1.articles
      = (((planningPhase st pages).article_links.take k).map (pageRecordsFor transport)).flatten
        ++ (((planningPhase st pages).article_links.drop k).map
              (pageRecordsFor transport)).flatten := by
  cases hg : gatherExcept (dispatchResults st pages transport) with
  | error e =>
    rw [run_async_gather_error st pages transport e hg] at h
    simp at h
  | ok bodies =>
    have hmap : dispatchResults st pages transport = bodies.map Except.ok := gather_ok _ _ hg
    have harts : (run_async st pages transport).1.articles
        = ((planningPhase st pages).article_links.map (pageRecordsFor transport)).flatten := by
      rw [run_async_gather_ok st pages transport bodies hg]
      show (((bodies.zip (planningPhase st pages).article_links).map
          (fun p => parse_article p.1 p.2)).filterMap id).flatten = _
      rw [flatten_filterMap_getD, List.map_map]
      exact parsed_flatten_eq transport (planningPhase st pages).article_links bodies hmap
    refine ⟨harts, fun k => ?_⟩
    rw [harts]
    conv_lhs => rw [← List.take_append_drop k (planningPhase st pages).article_links]
    rw [List.map_append, List.flatten_append]

/-- Witness for C4: the example run over one page with an all-200 transport. -/
theorem run_async_output_preserves_page_order_witness :
    (run_async exampleState 1 okTransport).1.articles
      = ((planningPhase exampleState 1).article_links.map (pageRecordsFor okTransport)).flatten :=
  (run_async_output_preserves_page_order exampleState 1 okTransport (by decide)).1

end MepMeetings

namespace MepMeetings

/-- `spanDigits` splits its input. -/
theorem spanDigits_append (l : List Char) : (spanDigits l).1 ++ (spanDigits l).2 = l := by
  induction l with
  | nil => rfl
  | cons c rest ih =>
    by_cases hc : c.isDigit
    · simp [spanDigits, hc, ih]
    · simp [spanDigits, hc]

/-- The first component of `spanDigits` is all digits. -/
theorem spanDigits_all (l : List Char) : (spanDigits l).1.all Char.isDigit = true := by
  induction l with
  | nil => rfl
  | cons c rest ih =>
    by_cases hc : c.isDigit
    · simp [spanDigits, hc, ih]
    · simp [spanDigits, hc]

/-- On a digit run followed by a slash, `spanDigits` takes exactly the run. -/
theorem spanDigits_exact (ds suf : List Char) (hall : ds.all Char.isDigit = true) :
    spanDigits (ds ++ '/' :: suf) = (ds, '/' :: suf) := by
  induction ds with
  | nil =>
    have hs : ('/').isDigit = false := by decide
    simp [spanDigits, hs]
  | cons d ds ih =>
    simp only [List.all_cons, Bool.and_eq_true] at hall
    simp [spanDigits, hall.1, ih hall.2]

/-- A head match of `/(\d+)/` is a match at offset 0. -/
theorem matchIdAt_sound (l ds : List Char) (h : matchIdAt l = some ds) :
    IsIdMatchAt l [] ds := by
  cases l with
  | nil => simp [matchIdAt] at h
  | cons c rest =>
    simp only [matchIdAt] at h
    by_cases hcond : c = '/' ∧ (spanDigits rest).1 ≠ [] ∧ (spanDigits rest).2.head? = some '/'
    · rw [if_pos hcond] at h
      injection h with h
      subst h
      obtain ⟨hc, hne, hhead⟩ := hcond
      subst hc
      cases h2 : (spanDigits rest).2 with
      | nil => rw [h2] at hhead; simp at hhead
      | cons x xtl =>
        rw [h2] at hhead
        simp at hhead
        subst hhead
        refine ⟨xtl, ?_, hne, spanDigits_all rest⟩
        have hsplit := spanDigits_append rest
        rw [h2] at hsplit
        conv_lhs => rw [← hsplit]
        rw [List.nil_append]
    · rw [if_neg hcond] at h
      exact absurd h (by simp)

/-- A match at offset 0 is found by the head matcher. -/
theorem matchIdAt_complete (l ds : List Char) (h : IsIdMatchAt l [] ds) :
    matchIdAt l = some ds := by
  obtain ⟨suf, hl, hne, hall⟩ := h
  simp only [List.nil_append] at hl
  subst hl
  simp only [matchIdAt]
  rw [spanDigits_exact ds suf hall]
  simp [hne]

/-- Shifting a match one character right. -/
theorem IsIdMatchAt_cons (c : Char) (l pre ds : List Char) (h : IsIdMatchAt l pre ds) :
    IsIdMatchAt (c :: l) (c :: pre) ds := by
  obtain ⟨suf, hl, hne, hall⟩ := h
  exact ⟨suf, by rw [hl]; rfl, hne, hall⟩

/-- Unshifting a match whose offset is positive. -/
theorem IsIdMatchAt_of_cons (c p : Char) (l pre ds : List Char)
    (h : IsIdMatchAt (c :: l) (p :: pre) ds) : p = c ∧ IsIdMatchAt l pre ds := by
  obtain ⟨suf, hl, hne, hall⟩ := h
  rw [List.cons_append] at hl
  injection hl with hl1 hl2
  exact ⟨hl1.symm, ⟨suf, hl2, hne, hall⟩⟩

/-- A successful search returns the group of the leftmost match. -/
theorem searchId_sound (l ds : List Char) (h : searchId l = some ds) :
    FirstIdMatch l ds := by
  induction l with
  | nil => simp [searchId] at h
  | cons c rest ih =>
    unfold searchId at h
    cases hm : matchIdAt (c :: rest) with
    | some ds2 =>
      rw [hm] at h
      injection h with h
      subst h
      exact ⟨[], matchIdAt_sound _ _ hm, fun pre2 ds2 _ => by simp⟩
    | none =>
      rw [hm] at h
      obtain ⟨pre, hmat, hmin⟩ := ih h
      refine ⟨c :: pre, IsIdMatchAt_cons c rest pre ds hmat, ?_⟩
      intro pre2 ds2 h2
      cases pre2 with
      | nil => exact absurd (matchIdAt_complete _ _ h2) (by rw [hm]; simp)
      | cons p pre2tl =>
        obtain ⟨_, h3⟩ := IsIdMatchAt_of_cons c p rest pre2tl ds2 h2
        simpa using Nat.succ_le_succ (hmin pre2tl ds2 h3)

/-- A failed search means there is no match anywhere. -/
theorem searchId_none (l : List Char) (h : searchId l = none) :
    ∀ pre ds, ¬ IsIdMatchAt l pre ds := by
  induction l with
  | nil =>
    rintro pre ds ⟨suf, hl, hne, hall⟩
    exact absurd hl.symm (by simp)
  | cons c rest ih =>
    unfold searchId at h
    cases hm : matchIdAt (c :: rest) with
    | some ds2 => rw [hm] at h; simp at h
    | none =>
      rw [hm] at h
      intro pre ds hmat
      cases pre with
      | nil => exact absurd (matchIdAt_complete _ _ hmat) (by rw [hm]; simp)
      | cons p pretl =>
        obtain ⟨_, h3⟩ := IsIdMatchAt_of_cons c p rest pretl ds hmat
        exact ih h pretl ds h3

/-- C8: if the seed URL holds a `/<digits>/` segment, `extract_member_id`
deterministically returns the digit group of the leftmost such match; if it
holds none, `extract_member_id` raises the `ValueError`, construction of the
fetcher fails, and a run from that seed yields the same validation error for
every page count and every transport — no fetch is ever consulted. -/
theorem extract_member_id_first_segment_or_error (url : String) :
    ((∃ pre ds, IsIdMatchAt url.data pre ds) →
        ∃ r, extract_member_id url = .ok r ∧ FirstIdMatch url.data r.data)
    ∧ ((¬ ∃ pre ds, IsIdMatchAt url.data pre ds) →
        extract_member_id url = .error "Member ID not found in the referer URL"
        ∧ ∀ pages transport,
            run_from_seed url 10 europarl_default_max_connections pages transport
              = .error "Member ID not found in the referer URL") := by
  constructor
  · rintro ⟨pre, ds, hmat⟩
    cases hs : searchId url.data with
    | none => exact absurd hmat (searchId_none _ hs pre ds)
    | some ds2 =>
      refine ⟨String.mk ds2, ?_, ?_⟩
      · unfold extract_member_id
        rw [hs]
      · exact searchId_sound _ _ hs
  · intro hno
    cases hs : searchId url.data with
    | some ds2 =>
      obtain ⟨pre, hmat, _⟩ := searchId_sound _ _ hs
      exact absurd ⟨pre, ds2, hmat⟩ hno
    | none =>
      have he : extract_member_id url = .error "Member ID not found in the referer URL" := by
        unfold extract_member_id
        rw [hs]
      have hinit : europarlInit url 10 europarl_default_max_connections
          = .error "Member ID not found in the referer URL" := by
        unfold europarlInit
        rw [he]
      refine ⟨he, fun pages transport => ?_⟩
      unfold run_from_seed
      rw [hinit]

/-- Witness for C8: the example seed yields its leftmost id "256864"; a seed
with no digit segment fails. -/
theorem extract_member_id_first_segment_or_error_witness :
    (∃ r, extract_member_id exampleSeed = .ok r ∧ FirstIdMatch exampleSeed.data r.data)
    ∧ extract_member_id "https://example.org/past"
        = .error "Member ID not found in the referer URL" :=
  ⟨(extract_member_id_first_segment_or_error exampleSeed).1
      ⟨"https://www.europarl.europa.eu/meps/en".data, "256864".data,
        "ANDRAS+TIVADAR_KULJA/meetings/past".data, by decide, by decide, by decide⟩,
   ((extract_member_id_first_segment_or_error "https://example.org/past").2
      (fun hex => by
        obtain ⟨pre, ds, hmat⟩ := hex
        exact searchId_none "https://example.org/past".data (by decide) pre ds hmat)).1⟩

end MepMeetings
